import Mathlib

/-!
Verification of the saaslet browser client library (src/saaslet.js).

The development shallowly embeds the parts of the library that the checked
properties speak about:

* the JSON / JavaScript value model used by the transport layer,
* the request pipeline (`createXMLHTTPObject`, `sendRequest`, the
  `onreadystatechange` completion handler, `get` / `post` with an optional
  transform function),
* the account client (`User.signup` / `login` / `logout` / `isLoggedIn`
  transforms and their event emissions),
* the event emitter (`on` / `off` / `emit` with ordered listeners),
* the widget manager (`createWidget`, `_removeWidget`, `_onWidgetMessage`,
  `Widget.setSize`).

Machine integers are modelled as `Nat` / `Int`; fallible JavaScript code is
modelled with `Except`; the externally-resolvable promise of `getPromise` is
modelled by making completion code return the action it applies to the
promise.
-/

/-! ## JavaScript values and errors -/

/-- A JavaScript value, as far as the library manipulates them: `undefined`,
`null`, booleans, numbers (the library only ever handles integral numbers),
strings, arrays and plain objects. -/
inductive JsValue where
  | undefined
  | null
  | boolean (b : Bool)
  | num (n : Int)
  | str (s : String)
  | arr (elems : List JsValue)
  | obj (fields : List (String × JsValue))

/-- A JavaScript exception as thrown by the code paths we model:
`TypeError` (property access on `undefined` / `null`, calling a method of
`undefined`) and the error thrown by `JSON.parse` on malformed input. -/
inductive JsError where
  | typeError (msg : String)
  | parseError (msg : String)
deriving DecidableEq, Repr

/-! ## Association lists

JavaScript objects used as string-keyed maps (`this.listener`,
`this.activeWidgets`, object literals reached by property access). -/
/-- Property read from a string-keyed map: `m[key]`, `none` = `undefined`. -/
def getEntry {α : Type} : List (String × α) → String → Option α
  | [], _ => none
  | (k, v) :: rest, key => if k = key then some v else getEntry rest key

/-- Property write `m[key] = v` (overwrites an existing key, else appends). -/
def setEntry {α : Type} : List (String × α) → String → α → List (String × α)
  | [], key, v => [(key, v)]
  | (k, w) :: rest, key, v =>
      if k = key then (k, v) :: rest else (k, w) :: setEntry rest key v

/-- Property removal `delete m[key]`. -/
def delEntry {α : Type} : List (String × α) → String → List (String × α)
  | [], _ => []
  | (k, w) :: rest, key =>
      if k = key then delEntry rest key else (k, w) :: delEntry rest key

/-- JavaScript property access `v[key]`: a `TypeError` on `undefined` / `null`,
the field (or `undefined`) on objects, `undefined` on other primitives and
arrays (built-in properties are not modelled). -/
def jsGetField : JsValue → String → Except JsError JsValue
  | .undefined, key => .error (.typeError ("Cannot read properties of undefined (reading " ++ key ++ ")"))
  | .null, key => .error (.typeError ("Cannot read properties of null (reading " ++ key ++ ")"))
  | .obj fields, key => .ok ((getEntry fields key).getD .undefined)
  | _, _ => .ok .undefined

/-! ## Transport (src/saaslet.js lines 525-633)

`getPromise` builds a promise with externally exposed `resolve` / `reject`
(a deferred). We therefore model completion code by the action it applies to
that deferred promise. -/
/-- The action the completion handler applies to the deferred promise. -/
inductive PromiseAction where
  | resolve (v : JsValue)
  | reject (v : JsValue)

/-- A caller-supplied `transformFn`. It may synchronously throw, and the
account-client transforms also emit events on the parent bus before
returning, so a transform yields the list of event names it emitted together
with its result. A plain pure transform has an empty emission list. -/
def Transform : Type := JsValue → List String × Except JsError JsValue

/-- Outcome of one run of the `onreadystatechange` handler at readyState 4:
either the handler ran to completion and settled the deferred promise
(`settled`), or it threw synchronously (`threw`) — in which case the
exception escapes into the XHR event dispatch and the promise is neither
resolved nor rejected. Either way we record the events emitted before the
outcome. -/
inductive CompletionResult where
  | settled (emitted : List String) (action : PromiseAction)
  | threw (emitted : List String) (e : JsError)

/-- The envelope `{ status: req.status, data: JSON.parse(req.responseText) }`
built by `sendRequest`'s completion handler (lines 592-595). -/
def responseEnvelope (status : Nat) (bodyVal : JsValue) : JsValue :=
  .obj [("status", .num status), ("data", bodyVal)]

/-- The `onreadystatechange` handler of `sendRequest` (lines 588-605), run at
readyState 4. `parsed` is the outcome of `JSON.parse(req.responseText)`
(`JSON.parse` is a platform builtin; we take its result as input):
if it threw, the handler throws before looking at the status. Otherwise the
envelope is built; a status other than 200/304 rejects with the envelope
unchanged, and a success status resolves — through `transformFn` when one was
supplied, whose own throw escapes the handler. -/
def completeRequest (status : Nat) (parsed : Except JsError JsValue)
    (transformFn : Option Transform) : CompletionResult :=
  match parsed with
  | .error e => .threw [] e
  | .ok bodyVal =>
      let responseData := responseEnvelope status bodyVal
      if status ≠ 200 ∧ status ≠ 304 then
        .settled [] (.reject responseData)
      else
        match transformFn with
        | none => .settled [] (.resolve responseData)
        | some f =>
            match f responseData with
            | (emitted, .ok v) => .settled emitted (.resolve v)
            | (emitted, .error e) => .threw emitted e

/-- The events a completion run emitted on the parent bus. -/
def emittedEvents : CompletionResult → List String
  | .settled emitted _ => emitted
  | .threw emitted _ => emitted

/-- The action a completion run applied to the deferred promise, if any.
`none` means the promise was left unsettled. -/
def settledAction : CompletionResult → Option PromiseAction
  | .settled _ action => some action
  | .threw _ _ => none

/-- `createXMLHTTPObject` (lines 621-633): try each factory of the fixed
`XMLHttpFactories` list in order, catching constructor throws (`none` models
a factory that throws) and stopping at the first success; when every factory
throws, the initial value `false` (modelled `none`) is returned. -/
def createXMLHTTPObject : List (Option Unit) → Option Unit
  | [] => none
  | f :: rest =>
      match f with
      | some x => some x
      | none => createXMLHTTPObject rest

/-- What `sendRequest` (lines 575-610) does up to (and including) sending:
which value it returns to its caller, whether `req.send` ran, and the action
applied to the deferred promise during construction. On construction failure
the code runs `promise.reject('Could not create XMLHTTPObject'); return;` —
the promise is rejected but the bare `return` hands `undefined` back to the
caller (`returnedPromise := false`), so nothing is sent and the rejected
promise is unreachable from outside. -/
structure SendRequestOutcome where
  returnedPromise : Bool
  sent : Bool
  constructionAction : Option PromiseAction

/-- The synchronous part of `sendRequest` (lines 575-610). -/
def sendRequestStart (factories : List (Option Unit)) : SendRequestOutcome :=
  match createXMLHTTPObject factories with
  | none =>
      { returnedPromise := false
        sent := false
        constructionAction := some (.reject (.str "Could not create XMLHTTPObject")) }
  | some _ =>
      { returnedPromise := true
        sent := true
        constructionAction := none }

/-- The six-element `XMLHttpFactories` list (lines 612-619) in an environment
in which every constructor throws (no `XMLHttpRequest`, no `ActiveXObject`). -/
def allFailingFactories : List (Option Unit) := [none, none, none, none, none, none]

/-! ## Account client (src/saaslet.js lines 363-523)

The three lifecycle operations pass a `transformFn` to `post` that first
emits the corresponding event on the parent bus and then produces the return
value. -/
/-- The transform of `User.signup` (lines 393-396): emit `signup`, then
return `d.data.userId`. The emission happens before the field accesses, so it
is recorded even when an access throws. -/
def signupTransform : Transform := fun d =>
  (["signup"],
    match jsGetField d "data" with
    | .ok dd => jsGetField dd "userId"
    | .error e => .error e)

/-- The transform of `User.login` (lines 414-417): emit `login`, return `d`. -/
def loginTransform : Transform := fun d => (["login"], .ok d)

/-- The transform of `User.logout` (lines 426-429): emit `logout`, return `d`. -/
def logoutTransform : Transform := fun d => (["logout"], .ok d)

/-! ## `User.isLoggedIn` (lines 474-483) -/
/-- How a settled promise settled: resolved with a value, rejected via
`promise.reject(value)`, or rejected because code in the executor threw. -/
inductive SettledPromise where
  | resolved (v : JsValue)
  | rejectedWith (v : JsValue)
  | rejectedExn (e : JsError)

/-- What the expression `get(url)` hands to the code around it: `noPromise`
when `sendRequest` hit the construction-failure branch and returned
`undefined`; otherwise the returned deferred promise, which either never
settles (`pending`) or settles (`settles`). -/
inductive GetCallResult where
  | noPromise
  | pending
  | settles (s : SettledPromise)

/-- The behaviour of `get(url)` (no transform), assembled from the transport
model: `factories` describes the environment, `completion` the request
completion (`none` = the request never reaches readyState 4; `some (status,
parsed)` = it completes with that HTTP status and `JSON.parse` outcome). A
completion run that throws leaves the deferred promise unsettled forever. -/
def getCallResult (factories : List (Option Unit))
    (completion : Option (Nat × Except JsError JsValue)) : GetCallResult :=
  match createXMLHTTPObject factories with
  | none => .noPromise
  | some _ =>
      match completion with
      | none => .pending
      | some (status, parsed) =>
          match completeRequest status parsed none with
          | .settled _ (.resolve v) => .settles (.resolved v)
          | .settled _ (.reject v) => .settles (.rejectedWith v)
          | .threw _ _ => .pending

/-- `User.isLoggedIn` (lines 474-483): a new promise whose executor runs
`get(url).then(() => resolve(true)).catch(e => resolve(false))`.
Per promise semantics:
* if `get` returned `undefined` (construction failure), `undefined.then`
  throws a `TypeError` inside the executor, which rejects the new promise;
* if the GET promise never settles, neither does the new promise (`none`);
* if the GET promise resolves, `resolve(true)` runs;
* if the GET promise rejects (by value or by an executor throw downstream),
  the `.catch` runs `resolve(false)`. -/
def isLoggedIn : GetCallResult → Option SettledPromise
  | .noPromise =>
      some (.rejectedExn (.typeError "Cannot read properties of undefined (reading then)"))
  | .pending => none
  | .settles (.resolved _) => some (.resolved (.boolean true))
  | .settles (.rejectedWith _) => some (.resolved (.boolean false))
  | .settles (.rejectedExn _) => some (.resolved (.boolean false))

/-! ## Event emitter (src/saaslet.js lines 12-117)

Callback functions and context objects are compared with `===` (reference
identity) by `off`; we model both by identity tokens (`Nat`, and
`Option Nat` with `none` for an omitted context). Each listener record
pushed by `on` additionally carries a model-level `id`: the object identity
of the record itself, assigned from a fresh counter, so that two
registrations of the same callback/context pair remain distinguishable —
exactly as two distinct JavaScript objects are. -/
/-- The record `{ eventName, fn, context, order }` pushed by `on`
(lines 36-41), tagged with its object identity `id`. -/
structure Listener where
  id : Nat
  eventName : String
  fn : Nat
  context : Option Nat
  order : Option Int
deriving DecidableEq, Repr

/-- JavaScript `a.order > b.order` for optional numeric orders: any
comparison against `undefined` is `false`. -/
def jsGtOrder : Option Int → Option Int → Bool
  | some a, some b => decide (b < a)
  | _, _ => false

/-- `a` may precede `b` under the comparator `(a, b) => a.order > b.order ? 1 : -1`
of line 43-45: the comparator returns `-1` exactly when `a.order > b.order`
is false. `Array.prototype.sort` is implementation-defined for such an
inconsistent comparator; we model it as a stable insertion sort under this
relation (engines use insertion sort for short arrays). -/
def listenerBefore (a b : Listener) : Prop := jsGtOrder a.order b.order = false

instance : DecidableRel listenerBefore := fun a b =>
  inferInstanceAs (Decidable (jsGtOrder a.order b.order = false))

/-- Emitter state: `this.listener` (event name → array of records, the key
being absent when no listener is registered) plus the model's fresh-identity
counter for listener records. -/
structure EventEmitter where
  listener : List (String × List Listener)
  nextId : Nat

/-- `new EventEmitter()` / the `Saaslet` constructor: `this.listener = {}`. -/
def EventEmitter.new : EventEmitter := { listener := [], nextId := 0 }

/-- The array registered for an event, `[]` when the key is absent. -/
def EventEmitter.bucketOf (s : EventEmitter) (eventName : String) : List Listener :=
  (getEntry s.listener eventName).getD []

/-- `on(eventName, fn, context, order)` (lines 31-46): create the key with
`[]` when absent, push the new record, then sort the array with the
one-sided order comparator. -/
def EventEmitter.on (s : EventEmitter) (eventName : String) (fn : Nat)
    (context : Option Nat) (order : Option Int) : EventEmitter :=
  let bucket := (getEntry s.listener eventName).getD []
  let entry : Listener :=
    { id := s.nextId, eventName := eventName, fn := fn, context := context, order := order }
  let sorted := List.insertionSort listenerBefore (bucket ++ [entry])
  { listener := setEntry s.listener eventName sorted, nextId := s.nextId + 1 }

/-- `array.splice(i, 1)`. -/
def spliceOne (l : List Listener) (i : Nat) : List Listener :=
  l.take i ++ l.drop (i + 1)

/-- The removal loop of `off` (lines 62-71): `i` starts at the array length
and counts down; each index whose record matches both `fn` and `context` is
spliced out. Splicing at `i` leaves indices below `i` untouched, so the
downward scan visits every original element once. -/
def offScan (fn : Nat) (context : Option Nat) : Nat → List Listener → List Listener
  | 0, l => l
  | i + 1, l =>
      match l[i]? with
      | some entry =>
          if entry.fn = fn ∧ entry.context = context then
            offScan fn context i (spliceOne l i)
          else
            offScan fn context i l
      | none => offScan fn context i l

/-- `off(eventName, fn, context)` (lines 57-76): return unchanged when the
event has no bucket; otherwise run the removal scan, and delete the key
entirely when the remaining array is empty. -/
def EventEmitter.off (s : EventEmitter) (eventName : String) (fn : Nat)
    (context : Option Nat) : EventEmitter :=
  match getEntry s.listener eventName with
  | none => s
  | some bucket =>
      let remaining := offScan fn context bucket.length bucket
      if remaining.length = 0 then
        { s with listener := delEntry s.listener eventName }
      else
        { s with listener := setEntry s.listener eventName remaining }

/-- JavaScript `x === false`. -/
def isLiterallyFalse : JsValue → Bool
  | .boolean false => true
  | _ => false

/-- Behaviour of the callback functions: identity token ↦ (context, args) ↦
return value. Callbacks are modelled as pure (they do not mutate the
emitter), under which the index-revalidation step of the `emit` loop
(lines 96-104) always advances the index. -/
def FnEnv : Type := Nat → Option Nat → List JsValue → JsValue

/-- The dispatch loop of `emit` (lines 94-104) over a fixed bucket, returning
the listeners invoked in order: each record's `fn` is applied to its
`context` and the emission's `args`; a callback returning the literal
`false` stops the loop after that call. -/
def emitScan (env : FnEnv) (args : List JsValue) : List Listener → List Listener
  | [] => []
  | entry :: rest =>
      if isLiterallyFalse (env entry.fn entry.context args) then [entry]
      else entry :: emitScan env args rest

/-- `emit(eventName, ...args)` (lines 86-105), returning the invocation log:
nothing happens when the event has no bucket. -/
def EventEmitter.emit (s : EventEmitter) (env : FnEnv) (eventName : String)
    (args : List JsValue) : List Listener :=
  match getEntry s.listener eventName with
  | none => []
  | some bucket => emitScan env args bucket

/-- A client-visible call on the emitter registry: `on` or `off`. -/
inductive EmitterOp where
  | onOp (eventName : String) (fn : Nat) (context : Option Nat) (order : Option Int)
  | offOp (eventName : String) (fn : Nat) (context : Option Nat)

/-- Apply one call. -/
def applyEmitterOp (s : EventEmitter) : EmitterOp → EventEmitter
  | .onOp eventName fn context order => s.on eventName fn context order
  | .offOp eventName fn context => s.off eventName fn context

/-- Run a sequence of `on` / `off` calls. -/
def runEmitterOps (s : EventEmitter) : List EmitterOp → EventEmitter
  | [] => s
  | op :: rest => runEmitterOps (applyEmitterOp s op) rest

/-! ## Widget manager (src/saaslet.js lines 127-355)

Of a `Widget` instance we model what `createWidget`, `_removeWidget` and the
resize path touch: the id, the name, the parent element's current width
(`parentElement.offsetWidth`) and the iframe's size attributes written by
`setSize` (unset until first assigned). -/
structure Widget where
  id : String
  name : String
  parentWidth : Int
  frameWidth : Option Int
  frameHeight : Option Int
deriving DecidableEq, Repr

/-- `Widget.setSize(width, height)` (lines 197-200):
`iFrame.width = Math.max(parentElement.offsetWidth, width)`;
`iFrame.height = height`. -/
def Widget.setSize (w : Widget) (width height : Int) : Widget :=
  { w with frameWidth := some (max w.parentWidth width), frameHeight := some height }

/-- The `Saaslet` facade state the widget claims touch: the monotone widget
counter and the id-keyed registry `this.activeWidgets`. -/
structure SaasletState where
  widgetCount : Nat
  activeWidgets : List (String × Widget)
deriving DecidableEq, Repr

/-- `new Saaslet(key)` (lines 237-246): empty registry, counter zero. -/
def SaasletState.new : SaasletState := { widgetCount := 0, activeWidgets := [] }

/-- JavaScript number-to-string conversion for the nonnegative integer
`widgetCount`, as performed by `'wid_' + this.widgetCount` (line 264): the
base-10 decimal representation. -/
def natToChars (n : Nat) : List Char :=
  if n = 0 then ['0'] else ((Nat.digits 10 n).map Nat.digitChar).reverse

/-- The decimal string for a nonnegative integer. -/
def jsNatToString (n : Nat) : String := ⟨natToChars n⟩

/-- The widget id `'wid_' + this.widgetCount` allocated by `createWidget`
(line 264). -/
def widgetIdFor (count : Nat) : String := "wid_" ++ jsNatToString count

/-- `createWidget(widgetName, elementOrSelector, ...)` (lines 261-284), after
the target element resolved to a node of width `parentWidth`: allocate the id
from the counter, build the widget, bump the counter, register the widget
immediately (before its load event), and hand the id out. (The returned
promise resolves with the widget only on the load signal; the id and the
registration are what the uniqueness claims are about.) -/
def SaasletState.createWidget (s : SaasletState) (widgetName : String)
    (parentWidth : Int) : SaasletState × String :=
  let widgetId := widgetIdFor s.widgetCount
  let widget : Widget :=
    { id := widgetId, name := widgetName, parentWidth := parentWidth,
      frameWidth := none, frameHeight := none }
  ({ widgetCount := s.widgetCount + 1,
     activeWidgets := setEntry s.activeWidgets widgetId widget }, widgetId)

/-- `_removeWidget(id)` (lines 316-318), the registry half of
`Widget.destroy()` (lines 179-182): `delete this.activeWidgets[id]`. -/
def SaasletState.removeWidget (s : SaasletState) (id : String) : SaasletState :=
  { s with activeWidgets := delEntry s.activeWidgets id }

/-- The `width` / `height` pair carried in a resize message's `data` field. -/
structure ResizeDims where
  width : Int
  height : Int
deriving DecidableEq, Repr

/-- The payload (`msg.data`) of an inbound cross-window message, as far as
`_onWidgetMessage` reads it: `source`, `action`, `widgetId` and the nested
`data` with the dimensions. -/
structure MessagePayload where
  source : String
  action : String
  widgetId : String
  data : ResizeDims
deriving DecidableEq, Repr

/-- An inbound `message` event: the sender's origin together with the
payload. (`_onWidgetMessage` never reads `origin`; it is carried here so the
origin-insensitivity claim can be stated.) -/
structure WindowMessage where
  origin : String
  data : MessagePayload
deriving DecidableEq, Repr

/-- `_onWidgetMessage(msg)` (lines 328-336): drop anything whose
`msg.data.source` is not `'saaslet-widget'`; on a `resize` action look the
instance up by `msg.data.widgetId` and call
`.setSize(msg.data.data.width, msg.data.data.height)` on it — when the id is
not registered the lookup yields `undefined` and the `.setSize` access throws
a `TypeError`. Any other action falls through with no effect. -/
def SaasletState.onWidgetMessage (s : SaasletState) (msg : WindowMessage) :
    Except JsError SaasletState :=
  if msg.data.source ≠ "saaslet-widget" then
    .ok s
  else if msg.data.action = "resize" then
    match getEntry s.activeWidgets msg.data.widgetId with
    | none => .error (.typeError "Cannot read properties of undefined (reading setSize)")
    | some w =>
        let resized := w.setSize msg.data.data.width msg.data.data.height
        .ok { s with activeWidgets := setEntry s.activeWidgets msg.data.widgetId resized }
  else
    .ok s

/-- A client-visible operation on one `Saaslet` instance's widget registry:
`createWidget`, or `destroy()` on a widget handle (whose registry half is
`_removeWidget`). -/
inductive WidgetOp where
  | create (name : String) (parentWidth : Int)
  | destroy (id : String)

/-- Run a sequence of operations, collecting the ids handed out by the
`createWidget` calls in order. -/
def runWidgetOps (s : SaasletState) : List WidgetOp → SaasletState × List String
  | [] => (s, [])
  | .create n pw :: rest =>
      let created := s.createWidget n pw
      let result := runWidgetOps created.1 rest
      (result.1, created.2 :: result.2)
  | .destroy i :: rest => runWidgetOps (s.removeWidget i) rest

/-- Number of `create` operations in a sequence. -/
def countCreates : List WidgetOp → Nat
  | [] => 0
  | .create _ _ :: rest => countCreates rest + 1
  | .destroy _ :: rest => countCreates rest

/-! ## Decimal representation: correctness of the widget-id printer -/
/-- Numeric value of a decimal digit character. -/
def charToDigit (c : Char) : Nat := c.toNat - 48

/-- Read a most-significant-first decimal digit string back into a number. -/
def decFromChars (cs : List Char) : Nat :=
  cs.foldl (fun acc c => acc * 10 + charToDigit c) 0

/-! ## Event-emitter lemmas -/
/-- The match test of the `off` loop (lines 65-68):
`list[i].fn === fn && list[i].context === context`. -/
def offMatches (fn : Nat) (context : Option Nat) (x : Listener) : Bool :=
  decide (x.fn = fn ∧ x.context = context)

/-- Model invariant: every listener record in the registry was allocated
before the current fresh-identity counter. -/
def idsBelow (s : EventEmitter) : Prop :=
  ∀ (e : String) (x : Listener), x ∈ s.bucketOf e → x.id < s.nextId

/-! ## Concrete scenario material used by theorems and witnesses -/
/-- A caller-supplied transform that throws. -/
def userThrowingTransform : Transform := fun _ => ([], .error (.typeError "boom"))

/-- `createWidget('login-signup', el)` on a fresh instance, with a parent
element 300 pixels wide. -/
def demoCreated : SaasletState × String := SaasletState.new.createWidget "login-signup" 300

/-- The registered widget record of the scenario above. -/
def demoWidget : Widget :=
  { id := "wid_0", name := "login-signup", parentWidth := 300,
    frameWidth := none, frameHeight := none }

/-- The state after `destroy()` ran on that widget. -/
def demoDestroyed : SaasletState := demoCreated.1.removeWidget "wid_0"

/-- A widget-tagged resize message for `wid_0` from a given sender origin. -/
def demoResizeMsg (origin : String) : WindowMessage :=
  { origin := origin,
    data := { source := "saaslet-widget", action := "resize", widgetId := "wid_0",
              data := { width := 50, height := 60 } } }

/-- The record registered by `on('login', fn3)` on a fresh emitter. -/
def demoListener : Listener :=
  { id := 0, eventName := "login", fn := 3, context := none, order := none }

/-- Counterexample to C8: with the same callback/context pair registered
twice, a single `off` call leaves zero registrations, not `2 - 1 = 1`: the
reverse scan of `off` removes every match in one call. -/
def dupRegistered : EventEmitter :=
  runEmitterOps EventEmitter.new [.onOp "changed" 7 none none, .onOp "changed" 7 none none]

/-! ## Lemmas and claim theorems -/

theorem getEntry_setEntry_self {α : Type} (m : List (String × α)) (k : String) (v : α) :
    getEntry (setEntry m k v) k = some v := by
  induction m with
  | nil => simp [setEntry, getEntry]
  | cons hd tl ih =>
      obtain ⟨a, w⟩ := hd
      by_cases h : a = k <;> simp [setEntry, getEntry, h, ih]

theorem getEntry_setEntry_ne {α : Type} (m : List (String × α)) (k k' : String) (v : α)
    (h : k' ≠ k) : getEntry (setEntry m k v) k' = getEntry m k' := by
  induction m with
  | nil =>
      simp only [setEntry, getEntry]
      rw [if_neg (Ne.symm h)]
  | cons hd tl ih =>
      obtain ⟨a, w⟩ := hd
      by_cases ha : a = k
      · subst ha
        simp only [setEntry, if_pos rfl, getEntry]
        rw [if_neg (Ne.symm h), if_neg (Ne.symm h)]
      · by_cases ha' : a = k' <;> simp [setEntry, getEntry, ha, ha', ih, h]

theorem getEntry_delEntry_self {α : Type} (m : List (String × α)) (k : String) :
    getEntry (delEntry m k) k = none := by
  induction m with
  | nil => simp [delEntry, getEntry]
  | cons hd tl ih =>
      obtain ⟨a, w⟩ := hd
      by_cases h : a = k <;> simp [delEntry, getEntry, h, ih]

theorem getEntry_delEntry_ne {α : Type} (m : List (String × α)) (k k' : String)
    (h : k' ≠ k) : getEntry (delEntry m k) k' = getEntry m k' := by
  induction m with
  | nil => simp [delEntry, getEntry]
  | cons hd tl ih =>
      obtain ⟨a, w⟩ := hd
      by_cases ha : a = k
      · subst ha
        simp only [delEntry, if_pos, getEntry, ih]
        rw [if_neg (Ne.symm h)]
      · by_cases ha' : a = k' <;> simp [delEntry, getEntry, ha, ha', ih, h]

theorem charToDigit_digitChar (d : Nat) (h : d < 10) :
    charToDigit (Nat.digitChar d) = d := by
  interval_cases d <;> rfl

theorem foldr_digitChar_ofDigits (l : List Nat) (h : ∀ d ∈ l, d < 10) :
    l.foldr (fun d acc => acc * 10 + charToDigit (Nat.digitChar d)) 0
      = Nat.ofDigits 10 l := by
  induction l with
  | nil => simp [Nat.ofDigits_nil]
  | cons d tl ih =>
      have hd : d < 10 := h d (List.mem_cons_self d tl)
      have htl : ∀ x ∈ tl, x < 10 := fun x hx => h x (List.mem_cons_of_mem d hx)
      simp only [List.foldr_cons, ih htl, charToDigit_digitChar d hd, Nat.ofDigits_cons]
      ring

theorem decFromChars_natToChars (n : Nat) : decFromChars (natToChars n) = n := by
  by_cases h : n = 0
  · subst h; rfl
  · unfold natToChars decFromChars
    rw [if_neg h, List.foldl_reverse, List.foldr_map,
      foldr_digitChar_ofDigits (Nat.digits 10 n)
        (fun d hd => Nat.digits_lt_base (by norm_num) hd),
      Nat.ofDigits_digits]

theorem jsNatToString_injective : Function.Injective jsNatToString := by
  intro a b h
  have hdata : natToChars a = natToChars b := congrArg String.data h
  have ha := decFromChars_natToChars a
  have hb := decFromChars_natToChars b
  rw [← ha, ← hb, hdata]

theorem widgetIdFor_injective : Function.Injective widgetIdFor := by
  intro a b h
  apply jsNatToString_injective
  have hdata := congrArg String.data h
  simp only [widgetIdFor, String.data_append] at hdata
  exact String.ext (List.append_cancel_left hdata)

/-! ## Widget-id allocation across operation sequences -/
theorem runWidgetOps_created (ops : List WidgetOp) :
    ∀ s : SaasletState,
      (runWidgetOps s ops).2
        = (List.range (countCreates ops)).map (fun i => widgetIdFor (s.widgetCount + i)) := by
  induction ops with
  | nil => intro s; simp [runWidgetOps, countCreates]
  | cons op rest ih =>
      intro s
      cases op with
      | create n pw =>
          simp only [runWidgetOps, countCreates, ih, SaasletState.createWidget,
            List.range_succ_eq_map, List.map_cons, List.map_map, Nat.add_zero]
          congr 1
          apply List.map_congr_left
          intro i _
          simp only [Function.comp]
          congr 1
          omega
      | destroy i =>
          simp only [runWidgetOps, countCreates, ih, SaasletState.removeWidget]

theorem offScan_eq_filter (fn : Nat) (context : Option Nat) :
    ∀ (i : Nat) (l : List Listener), i ≤ l.length →
      offScan fn context i l
        = (l.take i).filter (fun x => !offMatches fn context x) ++ l.drop i := by
  intro i
  induction i with
  | zero => intro l _; simp [offScan]
  | succ i ih =>
      intro l hi
      have hlt : i < l.length := hi
      have hget : l[i]? = some l[i] := List.getElem?_eq_getElem hlt
      have htake : l.take (i + 1) = l.take i ++ [l[i]] := by
        rw [List.take_succ, hget]
        rfl
      have hdrop : l.drop i = l[i] :: l.drop (i + 1) := List.drop_eq_getElem_cons hlt
      have htklen : (l.take i).length = i := by
        simp [List.length_take, Nat.le_of_lt hlt]
      by_cases hm : l[i].fn = fn ∧ l[i].context = context
      · have hmB : offMatches fn context l[i] = true := by
          simp [offMatches, hm]
        have hsp : spliceOne l i = l.take i ++ l.drop (i + 1) := rfl
        have hsplen : i ≤ (spliceOne l i).length := by
          simp only [hsp, List.length_append, htklen]
          omega
        have hspTake : (spliceOne l i).take i = l.take i := by
          rw [hsp, List.take_append_eq_append_take, htklen]
          simp [List.take_of_length_le (le_of_eq htklen)]
        have hspDrop : (spliceOne l i).drop i = l.drop (i + 1) := by
          rw [hsp, List.drop_append_eq_append_drop, htklen]
          simp [List.drop_of_length_le (le_of_eq htklen)]
        have hstep : offScan fn context (i + 1) l = offScan fn context i (spliceOne l i) := by
          simp [offScan, hget, hm]
        have hfl : List.filter (fun x => !offMatches fn context x) [l[i]] = [] := by
          simp [List.filter, hmB]
        rw [hstep, ih (spliceOne l i) hsplen, hspTake, hspDrop, htake,
          List.filter_append, hfl, List.append_nil]
      · have hmB : offMatches fn context l[i] = false := by
          simp only [offMatches]
          exact decide_eq_false hm
        have hstep : offScan fn context (i + 1) l = offScan fn context i l := by
          simp [offScan, hget, hm]
        have hfl : List.filter (fun x => !offMatches fn context x) [l[i]] = [l[i]] := by
          simp [List.filter, hmB]
        rw [hstep, ih l (Nat.le_of_lt hlt), htake, hdrop,
          List.filter_append, hfl]
        simp [List.append_assoc]

theorem bucketOf_off (s : EventEmitter) (eventName : String) (fn : Nat)
    (context : Option Nat) :
    (s.off eventName fn context).bucketOf eventName
      = (s.bucketOf eventName).filter (fun x => !offMatches fn context x) := by
  cases hb : getEntry s.listener eventName with
  | none => simp [EventEmitter.off, EventEmitter.bucketOf, hb]
  | some bucket =>
      have hscan := offScan_eq_filter fn context bucket.length bucket (le_refl _)
      rw [List.take_length, List.drop_length, List.append_nil] at hscan
      by_cases hz : (offScan fn context bucket.length bucket).length = 0
      · have hempty : bucket.filter (fun x => !offMatches fn context x) = [] := by
          rw [← hscan]
          exact List.eq_nil_of_length_eq_zero hz
        simp only [EventEmitter.off, hb]
        rw [if_pos hz]
        simp [EventEmitter.bucketOf, hb, getEntry_delEntry_self, hempty]
      · simp only [EventEmitter.off, hb]
        rw [if_neg hz]
        simp [EventEmitter.bucketOf, hb, getEntry_setEntry_self, hscan]

theorem bucketOf_off_ne (s : EventEmitter) (eventName e' : String) (fn : Nat)
    (context : Option Nat) (h : e' ≠ eventName) :
    (s.off eventName fn context).bucketOf e' = s.bucketOf e' := by
  cases hb : getEntry s.listener eventName with
  | none => simp [EventEmitter.off, hb]
  | some bucket =>
      by_cases hz : (offScan fn context bucket.length bucket).length = 0 <;>
        simp [EventEmitter.off, hb, hz, EventEmitter.bucketOf,
          getEntry_delEntry_ne _ _ _ h, getEntry_setEntry_ne _ _ _ _ h]

theorem nextId_off (s : EventEmitter) (eventName : String) (fn : Nat)
    (context : Option Nat) : (s.off eventName fn context).nextId = s.nextId := by
  cases hb : getEntry s.listener eventName with
  | none => simp [EventEmitter.off, hb]
  | some bucket =>
      by_cases hz : (offScan fn context bucket.length bucket).length = 0 <;>
        simp [EventEmitter.off, hb, hz]

theorem nextId_on (s : EventEmitter) (eventName : String) (fn : Nat)
    (context : Option Nat) (order : Option Int) :
    (s.on eventName fn context order).nextId = s.nextId + 1 := rfl

theorem bucketOf_on_self (s : EventEmitter) (eventName : String) (fn : Nat)
    (context : Option Nat) (order : Option Int) :
    (s.on eventName fn context order).bucketOf eventName
      = List.insertionSort listenerBefore
          (s.bucketOf eventName ++ [⟨s.nextId, eventName, fn, context, order⟩]) := by
  simp [EventEmitter.on, EventEmitter.bucketOf, getEntry_setEntry_self]

theorem bucketOf_on_ne (s : EventEmitter) (eventName e' : String) (fn : Nat)
    (context : Option Nat) (order : Option Int) (h : e' ≠ eventName) :
    (s.on eventName fn context order).bucketOf e' = s.bucketOf e' := by
  simp [EventEmitter.on, EventEmitter.bucketOf, getEntry_setEntry_ne _ _ _ _ h]

theorem idsBelow_new : idsBelow EventEmitter.new := by
  intro e x hx
  simp [EventEmitter.bucketOf, EventEmitter.new, getEntry] at hx

theorem idsBelow_applyOp (s : EventEmitter) (op : EmitterOp) (h : idsBelow s) :
    idsBelow (applyEmitterOp s op) := by
  cases op with
  | onOp e f c o =>
      intro e' x hx
      simp only [applyEmitterOp] at hx ⊢
      rw [nextId_on]
      by_cases he : e' = e
      · subst he
        rw [bucketOf_on_self, List.mem_insertionSort] at hx
        rcases List.mem_append.mp hx with hx | hx
        · exact Nat.lt_succ_of_lt (h e' x hx)
        · rw [List.mem_singleton] at hx
          rw [hx]
          exact Nat.lt_succ_self _
      · rw [bucketOf_on_ne s e e' f c o he] at hx
        exact Nat.lt_succ_of_lt (h e' x hx)
  | offOp e f c =>
      intro e' x hx
      simp only [applyEmitterOp] at hx ⊢
      rw [nextId_off]
      by_cases he : e' = e
      · subst he
        rw [bucketOf_off] at hx
        exact h e' x (List.mem_of_mem_filter hx)
      · rw [bucketOf_off_ne s e e' f c he] at hx
        exact h e' x hx

theorem idsBelow_run (ops : List EmitterOp) :
    ∀ s, idsBelow s → idsBelow (runEmitterOps s ops) := by
  induction ops with
  | nil => intro s h; exact h
  | cons op rest ih => intro s h; exact ih _ (idsBelow_applyOp s op h)

theorem notMem_applyOp (s : EventEmitter) (op : EmitterOp) (e : String) (x : Listener)
    (hid : x.id < s.nextId) (hx : x ∉ s.bucketOf e) :
    x.id < (applyEmitterOp s op).nextId ∧ x ∉ (applyEmitterOp s op).bucketOf e := by
  cases op with
  | onOp e1 f c o =>
      refine ⟨?_, ?_⟩
      · simp only [applyEmitterOp]
        rw [nextId_on]
        exact Nat.lt_succ_of_lt hid
      · simp only [applyEmitterOp]
        by_cases he : e = e1
        · subst he
          rw [bucketOf_on_self, List.mem_insertionSort]
          intro hmem
          rcases List.mem_append.mp hmem with hmem | hmem
          · exact hx hmem
          · rw [List.mem_singleton] at hmem
            rw [hmem] at hid
            exact absurd hid (Nat.lt_irrefl _)
        · rw [bucketOf_on_ne s e1 e f c o he]
          exact hx
  | offOp e1 f c =>
      refine ⟨?_, ?_⟩
      · simp only [applyEmitterOp]
        rw [nextId_off]
        exact hid
      · simp only [applyEmitterOp]
        by_cases he : e = e1
        · subst he
          rw [bucketOf_off]
          intro hmem
          exact hx (List.mem_of_mem_filter hmem)
        · rw [bucketOf_off_ne s e1 e f c he]
          exact hx

theorem notMem_run (ops : List EmitterOp) :
    ∀ (s : EventEmitter) (e : String) (x : Listener),
      x.id < s.nextId → x ∉ s.bucketOf e → x ∉ (runEmitterOps s ops).bucketOf e := by
  induction ops with
  | nil => intro s e x _ hx; exact hx
  | cons op rest ih =>
      intro s e x hid hx
      obtain ⟨hid2, hx2⟩ := notMem_applyOp s op e x hid hx
      exact ih _ e x hid2 hx2

theorem matching_not_in_off (s : EventEmitter) (e : String) (f : Nat) (c : Option Nat)
    (x : Listener) (hfn : x.fn = f) (hctx : x.context = c) :
    x ∉ (s.off e f c).bucketOf e := by
  rw [bucketOf_off]
  intro hmem
  rcases List.mem_filter.mp hmem with ⟨_, hpred⟩
  simp [offMatches, hfn, hctx] at hpred

theorem mem_emitScan (env : FnEnv) (args : List JsValue) :
    ∀ (l : List Listener) (x : Listener), x ∈ emitScan env args l → x ∈ l := by
  intro l
  induction l with
  | nil => intro x hx; simp [emitScan] at hx
  | cons hd tl ih =>
      intro x hx
      simp only [emitScan] at hx
      by_cases hf : isLiterallyFalse (env hd.fn hd.context args) = true
      · rw [if_pos hf, List.mem_singleton] at hx
        rw [hx]
        exact List.mem_cons_self hd tl
      · rw [if_neg hf] at hx
        rcases List.mem_cons.mp hx with hx | hx
        · rw [hx]
          exact List.mem_cons_self hd tl
        · exact List.mem_cons_of_mem _ (ih x hx)

theorem mem_emit (s : EventEmitter) (env : FnEnv) (e : String) (args : List JsValue)
    (x : Listener) (hx : x ∈ s.emit env e args) : x ∈ s.bucketOf e := by
  unfold EventEmitter.emit at hx
  cases hb : getEntry s.listener e with
  | none =>
      rw [hb] at hx
      simp at hx
  | some bucket =>
      rw [hb] at hx
      have hmem := mem_emitScan env args bucket x hx
      simp [EventEmitter.bucketOf, hb, hmem]

theorem runEmitterOps_append (l1 l2 : List EmitterOp) :
    ∀ s, runEmitterOps s (l1 ++ l2) = runEmitterOps (runEmitterOps s l1) l2 := by
  induction l1 with
  | nil => intro s; rfl
  | cons op rest ih =>
      intro s
      simp only [List.cons_append, runEmitterOps]
      exact ih _

/-! ## Claim theorems -/
/-- C1: for every completed request whose body parses, the handler builds the
envelope `{status, data}`; on status 200/304 the deferred promise is resolved
(after the supplied transform, when one is given and returns), and on every
other status it is rejected with the envelope unchanged — no transform runs
and nothing is emitted on the rejection path. -/
theorem completion_envelope_routing (status : Nat) (bodyVal : JsValue) (f : Transform) :
    (status ≠ 200 ∧ status ≠ 304 →
      ∀ transformFn : Option Transform,
        completeRequest status (.ok bodyVal) transformFn
          = .settled [] (.reject (responseEnvelope status bodyVal))) ∧
    ((status = 200 ∨ status = 304) →
      completeRequest status (.ok bodyVal) none
          = .settled [] (.resolve (responseEnvelope status bodyVal)) ∧
      ∀ (emitted : List String) (v : JsValue),
        f (responseEnvelope status bodyVal) = (emitted, .ok v) →
        completeRequest status (.ok bodyVal) (some f)
          = .settled emitted (.resolve v)) := by
  constructor
  · intro h transformFn
    simp only [completeRequest]
    rw [if_pos h]
  · intro h
    have hcond : ¬(status ≠ 200 ∧ status ≠ 304) := by
      rcases h with h | h <;> simp [h]
    constructor
    · simp only [completeRequest]
      rw [if_neg hcond]
    · intro emitted v hf
      simp only [completeRequest]
      rw [if_neg hcond, hf]

/-- Witness for C1 at status 404 (rejection, transform ignored) and status
200 with the login transform (resolution through the transform). -/
theorem completion_envelope_routing_witness :
    completeRequest 404 (.ok .null) (some loginTransform)
        = .settled [] (.reject (responseEnvelope 404 .null)) ∧
    completeRequest 200 (.ok .null) (some loginTransform)
        = .settled ["login"] (.resolve (responseEnvelope 200 .null)) :=
  ⟨(completion_envelope_routing 404 .null loginTransform).1 (by decide) (some loginTransform),
   ((completion_envelope_routing 200 .null loginTransform).2 (Or.inl rfl)).2 ["login"]
     (responseEnvelope 200 .null) rfl⟩

/-- C2: `isLoggedIn` is supposed to always resolve with a boolean and never
reject. In an environment where every request-object constructor throws,
`get` returns `undefined` (the construction-failure branch of `sendRequest`
does not return its promise), `undefined.then` throws inside the executor,
and the `isLoggedIn` promise REJECTS with a `TypeError` instead of resolving
`false` — contradicting the claim and the code's own doc comment. -/
theorem isLoggedIn_rejects_on_construction_failure :
    isLoggedIn (getCallResult allFailingFactories none)
      = some (.rejectedExn (.typeError "Cannot read properties of undefined (reading then)")) ∧
    ∀ v : JsValue,
      isLoggedIn (getCallResult allFailingFactories none) ≠ some (.resolved v) := by
  refine ⟨rfl, ?_⟩
  intro v h
  rw [show getCallResult allFailingFactories none = GetCallResult.noPromise from rfl] at h
  simp [isLoggedIn] at h

/-- C3: a widget-tagged `resize` message whose `widgetId` was destroyed is
claimed to be silently dropped; in the code the registry lookup yields
`undefined` and the `.setSize` access THROWS a `TypeError` inside the message
handler instead. -/
theorem resize_for_destroyed_widget_throws :
    demoCreated.2 = "wid_0" ∧
    getEntry demoDestroyed.activeWidgets "wid_0" = none ∧
    demoDestroyed.onWidgetMessage (demoResizeMsg "http://devapp.saaslet.com:8080/")
      = .error (.typeError "Cannot read properties of undefined (reading setSize)") :=
  ⟨rfl, rfl, rfl⟩

/-- C4: when completion processing of a 200 response throws synchronously
(body fails to parse, or the supplied transform throws), the claim says the
promise is rejected with that error. In the code the handler is a bare XHR
callback, not a promise reaction: the exception escapes and the deferred
promise is neither resolved nor rejected (`settledAction = none`) — it stays
pending forever. -/
theorem success_processing_throw_leaves_promise_unsettled :
    settledAction (completeRequest 200 (.error (.parseError "Unexpected token")) none) = none ∧
    completeRequest 200 (.error (.parseError "Unexpected token")) none
      = .threw [] (.parseError "Unexpected token") ∧
    settledAction (completeRequest 200 (.ok .null) (some userThrowingTransform)) = none ∧
    completeRequest 200 (.ok .null) (some userThrowingTransform)
      = .threw [] (.typeError "boom") :=
  ⟨rfl, rfl, rfl, rfl⟩

/-- C5: when every factory throws, `sendRequest` is claimed to fail with a
construction-error rejection observable by the caller. The code rejects its
internal promise and sends nothing, but the branch ends in a bare `return`:
the caller receives `undefined` (`returnedPromise = false`), so the rejection
is not observable by the caller. -/
theorem construction_failure_rejection_not_returned :
    sendRequestStart allFailingFactories
      = { returnedPromise := false, sent := false,
          constructionAction := some (.reject (.str "Could not create XMLHTTPObject")) } :=
  rfl

/-- C6: each of signup/login/logout emits its event exactly once per
successful (200/304) completion and never when the completion rejects. -/
theorem lifecycle_events_emitted_once_on_success (status : Nat) (bodyVal : JsValue) :
    (emittedEvents (completeRequest status (.ok bodyVal) (some signupTransform))
       = if status = 200 ∨ status = 304 then ["signup"] else []) ∧
    (emittedEvents (completeRequest status (.ok bodyVal) (some loginTransform))
       = if status = 200 ∨ status = 304 then ["login"] else []) ∧
    (emittedEvents (completeRequest status (.ok bodyVal) (some logoutTransform))
       = if status = 200 ∨ status = 304 then ["logout"] else []) := by
  have hsignup : signupTransform (responseEnvelope status bodyVal)
      = (["signup"], jsGetField bodyVal "userId") := rfl
  by_cases h : status = 200 ∨ status = 304
  · have hcond : ¬(status ≠ 200 ∧ status ≠ 304) := by
      rcases h with h | h <;> simp [h]
    refine ⟨?_, ?_, ?_⟩
    · simp only [completeRequest]
      rw [if_neg hcond, if_pos h, hsignup]
      cases hj : jsGetField bodyVal "userId" <;> simp [emittedEvents]
    · simp only [completeRequest]
      rw [if_neg hcond, if_pos h]
      rfl
    · simp only [completeRequest]
      rw [if_neg hcond, if_pos h]
      rfl
  · have hcond : status ≠ 200 ∧ status ≠ 304 := by
      constructor <;> intro hh <;> exact h (by simp [hh])
    refine ⟨?_, ?_, ?_⟩ <;>
      · simp only [completeRequest]
        rw [if_pos hcond, if_neg h]
        rfl

/-- C7: an `emit` never invokes a listener registration that was removed by
`off` before the emission began: whatever `on`/`off` calls followed the
removal, the removed record is not among the listeners the emission
invokes. -/
theorem emit_never_invokes_removed_listener
    (ops1 ops2 : List EmitterOp) (e : String) (f : Nat) (c : Option Nat)
    (x : Listener) (env : FnEnv) (args : List JsValue)
    (hmem : x ∈ (runEmitterOps EventEmitter.new ops1).bucketOf e)
    (hfn : x.fn = f) (hctx : x.context = c) :
    x ∉ (runEmitterOps EventEmitter.new
          (ops1 ++ EmitterOp.offOp e f c :: ops2)).emit env e args := by
  intro hin
  have hid : x.id < (runEmitterOps EventEmitter.new ops1).nextId :=
    idsBelow_run ops1 EventEmitter.new idsBelow_new e x hmem
  have hrun : runEmitterOps EventEmitter.new (ops1 ++ EmitterOp.offOp e f c :: ops2)
      = runEmitterOps
          ((runEmitterOps EventEmitter.new ops1).off e f c) ops2 := by
    rw [runEmitterOps_append]
    rfl
  have hnm : x ∉ ((runEmitterOps EventEmitter.new ops1).off e f c).bucketOf e :=
    matching_not_in_off (runEmitterOps EventEmitter.new ops1) e f c x hfn hctx
  have hid2 : x.id < ((runEmitterOps EventEmitter.new ops1).off e f c).nextId := by
    rw [nextId_off]
    exact hid
  have hfin : x ∉ (runEmitterOps ((runEmitterOps EventEmitter.new ops1).off e f c) ops2).bucketOf e :=
    notMem_run ops2 _ e x hid2 hnm
  rw [hrun] at hin
  exact hfin (mem_emit _ env e args x hin)

/-- Witness for C7: register `fn3` for `login`, remove it, emit `login`; the
removed record is present before the `off` and not invoked afterwards. -/
theorem emit_never_invokes_removed_listener_witness :
    demoListener ∈ (runEmitterOps EventEmitter.new
        [.onOp "login" 3 none none]).bucketOf "login" ∧
    demoListener ∉ (runEmitterOps EventEmitter.new
        ([.onOp "login" 3 none none] ++ EmitterOp.offOp "login" 3 none :: [])).emit
        (fun _ _ _ => .undefined) "login" [] :=
  ⟨by decide,
   emit_never_invokes_removed_listener [.onOp "login" 3 none none] [] "login" 3 none
     demoListener (fun _ _ _ => .undefined) [] (by decide) rfl rfl⟩

/-- Counterexample to C8 (see `dupRegistered`). -/
theorem off_leaves_zero_of_two_duplicates :
    (dupRegistered.bucketOf "changed").length = 2 ∧
    ((dupRegistered.off "changed" 7 none).bucketOf "changed").length = 0 ∧
    ¬((dupRegistered.off "changed" 7 none).bucketOf "changed").length = 2 - 1 := by
  decide

/-- C8 (amended): a single `off(eventName, fn, context)` call removes every
registration of that event matching both callback and context — the bucket
keeps exactly the non-matching registrations, in order. -/
theorem off_removes_every_matching_registration (s : EventEmitter) (eventName : String)
    (fn : Nat) (context : Option Nat) :
    (s.off eventName fn context).bucketOf eventName
      = (s.bucketOf eventName).filter (fun x => !offMatches fn context x) :=
  bucketOf_off s eventName fn context

/-- C9: across any sequence of `createWidget` / `destroy` operations on one
instance, the ids handed out are `wid_0, wid_1, ...` in order — the counter
only ever grows, destroys do not decrement it — and hence pairwise
distinct: no id is ever reused. -/
theorem widget_ids_unique_and_monotone (ops : List WidgetOp) :
    (runWidgetOps SaasletState.new ops).2
      = (List.range (runWidgetOps SaasletState.new ops).2.length).map widgetIdFor ∧
    (runWidgetOps SaasletState.new ops).2.Nodup := by
  have h0 : (runWidgetOps SaasletState.new ops).2
      = (List.range (countCreates ops)).map widgetIdFor := by
    rw [runWidgetOps_created ops SaasletState.new]
    apply List.map_congr_left
    intro i _
    simp [SaasletState.new]
  constructor
  · rw [h0, List.length_map, List.length_range]
  · rw [h0]
    exact (List.nodup_range _).map widgetIdFor_injective

/-- C10: `_onWidgetMessage` filters only on the payload's `source` field and
never reads the sender origin: two messages with identical payloads but
different origins produce identical outcomes, and for a registered widget id
any origin gets the `setSize` effect applied. -/
theorem widget_message_handler_ignores_origin (s : SaasletState)
    (payload : MessagePayload) (origin1 origin2 : String) :
    s.onWidgetMessage { origin := origin1, data := payload }
      = s.onWidgetMessage { origin := origin2, data := payload } ∧
    (∀ (origin : String) (w : Widget),
      payload.source = "saaslet-widget" → payload.action = "resize" →
      getEntry s.activeWidgets payload.widgetId = some w →
      s.onWidgetMessage { origin := origin, data := payload }
        = .ok { s with activeWidgets := setEntry s.activeWidgets payload.widgetId (w.setSize payload.data.width payload.data.height) }) := by
  constructor
  · rfl
  · intro origin w hsrc hact hw
    simp [SaasletState.onWidgetMessage, hsrc, hact, hw]

/-- Witness for C10: a registered widget is resized by a message from an
arbitrary, unrelated origin. -/
theorem widget_message_handler_ignores_origin_witness :
    getEntry demoCreated.1.activeWidgets "wid_0" = some demoWidget ∧
    demoCreated.1.onWidgetMessage (demoResizeMsg "https://any-origin.example")
      = .ok { demoCreated.1 with activeWidgets := setEntry demoCreated.1.activeWidgets "wid_0" (demoWidget.setSize 50 60) } := by
  refine ⟨rfl, ?_⟩
  exact (widget_message_handler_ignores_origin demoCreated.1
      (demoResizeMsg "https://any-origin.example").data
      "https://any-origin.example" "https://other.example").2
    "https://any-origin.example" demoWidget rfl rfl rfl
